import Mathlib

/-!
Verification of the obs-agent core: signed-envelope codec (seal/open, nonce
cache), OBS v5 protocol policy, the relay-to-OBS bridge pipe, the media
monitor's state mapping, the relay handshake, and the supervisor's
reconnection backoff.  Each Go function is shallowly embedded as an
executable Lean function; byte strings are `List Nat` with values below 256,
HMAC-SHA256 is an abstract parameter (its internals are irrelevant to every
property proved here), and the wall clock and the RNG of `Seal` are explicit
arguments.
-/

namespace ObsAgent

/-! ### Hex encoding (Go `encoding/hex`) -/

/-- Lowercase hex digit `n` of Go's `hex.EncodeToString` alphabet
`0123456789abcdef`. -/
def hexDigitChar (n : Nat) : Char :=
  if n < 10 then Char.ofNat ('0'.toNat + n)
  else if n < 16 then Char.ofNat ('a'.toNat + n - 10)
  else '?'

/-- Value of one hex digit; Go's `hex.DecodeString` is case-insensitive. -/
def hexDigitVal (c : Char) : Option Nat :=
  if '0' ≤ c ∧ c ≤ '9' then some (c.toNat - '0'.toNat)
  else if 'a' ≤ c ∧ c ≤ 'f' then some (c.toNat - 'a'.toNat + 10)
  else if 'A' ≤ c ∧ c ≤ 'F' then some (c.toNat - 'A'.toNat + 10)
  else none

def hexEncodeList : List Nat → List Char
  | [] => []
  | b :: rest => hexDigitChar (b / 16) :: hexDigitChar (b % 16) :: hexEncodeList rest

def hexEncode (bs : List Nat) : String := String.mk (hexEncodeList bs)

def hexDecodeList : List Char → Option (List Nat)
  | [] => some []
  | [_] => none
  | c1 :: c2 :: rest =>
    match hexDigitVal c1, hexDigitVal c2, hexDecodeList rest with
    | some v1, some v2, some bs => some ((16 * v1 + v2) :: bs)
    | _, _, _ => none

def hexDecode (s : String) : Option (List Nat) := hexDecodeList s.data

theorem hexDigitVal_hexDigitChar : ∀ d : Nat, d < 16 → hexDigitVal (hexDigitChar d) = some d := by
  decide

theorem hexEncodeList_length (bs : List Nat) : (hexEncodeList bs).length = 2 * bs.length := by
  induction bs with
  | nil => rfl
  | cons b rest ih => simp [hexEncodeList, ih]; omega

theorem hexDecodeList_hexEncodeList (bs : List Nat) (h : ∀ b ∈ bs, b < 256) :
    hexDecodeList (hexEncodeList bs) = some bs := by
  induction bs with
  | nil => rfl
  | cons b rest ih =>
    have hb : b < 256 := h b (List.mem_cons_self b rest)
    have h1 : hexDigitVal (hexDigitChar (b / 16)) = some (b / 16) :=
      hexDigitVal_hexDigitChar _ (by omega)
    have h2 : hexDigitVal (hexDigitChar (b % 16)) = some (b % 16) :=
      hexDigitVal_hexDigitChar _ (by omega)
    have hrest := ih (fun x hx => h x (List.mem_cons_of_mem b hx))
    have hval : 16 * (b / 16) + b % 16 = b := by omega
    simp [hexEncodeList, hexDecodeList, h1, h2, hrest, hval]

/-! ### Base64 encoding (Go `encoding/base64` StdEncoding) -/

/-- Character `n` of the standard base64 alphabet
`A-Z a-z 0-9 + /` used by Go's `base64.StdEncoding`. -/
def b64Char (n : Nat) : Char :=
  if n < 26 then Char.ofNat ('A'.toNat + n)
  else if n < 52 then Char.ofNat ('a'.toNat + n - 26)
  else if n < 62 then Char.ofNat ('0'.toNat + n - 52)
  else if n = 62 then '+'
  else if n = 63 then '/'
  else '?'

/-- Index of a character in the standard base64 alphabet (the decode map of
Go's `base64.StdEncoding`). -/
def charSextet (c : Char) : Option Nat :=
  if 'A' ≤ c ∧ c ≤ 'Z' then some (c.toNat - 'A'.toNat)
  else if 'a' ≤ c ∧ c ≤ 'z' then some (c.toNat - 'a'.toNat + 26)
  else if '0' ≤ c ∧ c ≤ '9' then some (c.toNat - '0'.toNat + 52)
  else if c = '+' then some 62
  else if c = '/' then some 63
  else none

/-- Encoder mirroring Go's `base64.StdEncoding.EncodeToString` (with padding). -/
def b64EncodeChars : List Nat → List Char
  | [] => []
  | [b1] => [b64Char (b1 / 4), b64Char (b1 % 4 * 16), '=', '=']
  | [b1, b2] => [b64Char (b1 / 4), b64Char (b1 % 4 * 16 + b2 / 16), b64Char (b2 % 16 * 4), '=']
  | b1 :: b2 :: b3 :: rest =>
    b64Char (b1 / 4) :: b64Char (b1 % 4 * 16 + b2 / 16) ::
    b64Char (b2 % 16 * 4 + b3 / 64) :: b64Char (b3 % 64) :: b64EncodeChars rest

def base64Encode (bs : List Nat) : String := String.mk (b64EncodeChars bs)

/-- Decoder mirroring Go's `base64.StdEncoding.DecodeString`: groups of four
characters, padding only in the final group, trailing bits ignored (Go's
default non-Strict decoder). -/
def b64DecodeChars : List Char → Option (List Nat)
  | [] => some []
  | c1 :: c2 :: c3 :: c4 :: rest =>
    if c3 = '=' ∧ c4 = '=' ∧ rest = [] then
      match charSextet c1, charSextet c2 with
      | some s1, some s2 => some [s1 * 4 + s2 / 16]
      | _, _ => none
    else if c4 = '=' ∧ rest = [] then
      match charSextet c1, charSextet c2, charSextet c3 with
      | some s1, some s2, some s3 => some [s1 * 4 + s2 / 16, s2 % 16 * 16 + s3 / 4]
      | _, _, _ => none
    else
      match charSextet c1, charSextet c2, charSextet c3, charSextet c4, b64DecodeChars rest with
      | some s1, some s2, some s3, some s4, some bs =>
        some ((s1 * 4 + s2 / 16) :: (s2 % 16 * 16 + s3 / 4) :: (s3 % 4 * 64 + s4) :: bs)
      | _, _, _, _, _ => none
  | _ => none

def base64Decode (s : String) : Option (List Nat) := b64DecodeChars s.data

theorem charSextet_b64Char : ∀ s : Nat, s < 64 → charSextet (b64Char s) = some s := by
  decide

theorem b64Char_ne_pad : ∀ s : Nat, s < 64 → b64Char s ≠ '=' := by
  decide

theorem b64DecodeChars_b64EncodeChars :
    ∀ bs : List Nat, (∀ b ∈ bs, b < 256) → b64DecodeChars (b64EncodeChars bs) = some bs
  | [], _ => rfl
  | [b1], h => by
    have hb1 : b1 < 256 := h b1 (by simp)
    have e1 := charSextet_b64Char (b1 / 4) (by omega)
    have e2 := charSextet_b64Char (b1 % 4 * 16) (by omega)
    simp [b64EncodeChars, b64DecodeChars, e1, e2]
    omega
  | [b1, b2], h => by
    have hb1 : b1 < 256 := h b1 (by simp)
    have hb2 : b2 < 256 := h b2 (by simp)
    have e1 := charSextet_b64Char (b1 / 4) (by omega)
    have e2 := charSextet_b64Char (b1 % 4 * 16 + b2 / 16) (by omega)
    have e3 := charSextet_b64Char (b2 % 16 * 4) (by omega)
    have hp : b64Char (b2 % 16 * 4) ≠ '=' := b64Char_ne_pad _ (by omega)
    simp [b64EncodeChars, b64DecodeChars, hp, e1, e2, e3]
    constructor
    · omega
    · omega
  | b1 :: b2 :: b3 :: rest, h => by
    have hb1 : b1 < 256 := h b1 (by simp)
    have hb2 : b2 < 256 := h b2 (by simp)
    have hb3 : b3 < 256 := h b3 (by simp)
    have ih := b64DecodeChars_b64EncodeChars rest (fun x hx => h x (by simp [hx]))
    have e1 := charSextet_b64Char (b1 / 4) (by omega)
    have e2 := charSextet_b64Char (b1 % 4 * 16 + b2 / 16) (by omega)
    have e3 := charSextet_b64Char (b2 % 16 * 4 + b3 / 64) (by omega)
    have e4 := charSextet_b64Char (b3 % 64) (by omega)
    have hp3 : b64Char (b2 % 16 * 4 + b3 / 64) ≠ '=' := b64Char_ne_pad _ (by omega)
    have hp4 : b64Char (b3 % 64) ≠ '=' := b64Char_ne_pad _ (by omega)
    have hv1 : b1 / 4 * 4 + (b1 % 4 * 16 + b2 / 16) / 16 = b1 := by omega
    have hv2 : (b1 % 4 * 16 + b2 / 16) % 16 * 16 + (b2 % 16 * 4 + b3 / 64) / 4 = b2 := by omega
    have hv3 : (b2 % 16 * 4 + b3 / 64) % 4 * 64 + b3 % 64 = b3 := by omega
    simp [b64EncodeChars, b64DecodeChars, hp3, hp4, e1, e2, e3, e4, hv1, hv2, hv3, ih]

theorem base64Encode_nil : base64Encode [] = "" := rfl

theorem base64Encode_ne_empty (bs : List Nat) (h : bs ≠ []) : base64Encode bs ≠ "" := by
  match bs, h with
  | [b1], _ => simp [base64Encode, b64EncodeChars, String.ext_iff]
  | [b1, b2], _ => simp [base64Encode, b64EncodeChars, String.ext_iff]
  | b1 :: b2 :: b3 :: rest, _ => simp [base64Encode, b64EncodeChars, String.ext_iff]

/-! ### Signed envelope codec (internal/tunnel, envelope part of bridge.go)

Byte strings are `List Nat` (each element a byte value).  HMAC-SHA256 is
abstracted as a function parameter `mac : List Nat → String → List Nat`
taking the key bytes and the message string to the digest bytes; every
property proved below holds for an arbitrary such function, hence in
particular for HMAC-SHA256.  The wall clock (`now`, Unix milliseconds) and
the RNG output of `Seal` (the 16 nonce bytes) are explicit arguments. -/

/-- Type of the abstract HMAC-SHA256 function: key bytes and message string
to digest bytes. -/
abbrev MacFun : Type := List Nat → String → List Nat

/-- UTF-8 bytes of a string, restricted to the ASCII range (agent tokens are
64 lowercase hex characters, so this matches Go's `[]byte(token)`). -/
def strBytes (s : String) : List Nat := s.data.map Char.toNat

/-- `DeriveSessionKey` from bridge.go: `HMAC-SHA256(token, "obs-agent-v1|" ++ nonce)`. -/
def DeriveSessionKey (mac : MacFun) (token : String) (sessionNonce : String) : List Nat :=
  mac (strBytes token) ("obs-agent-v1|" ++ sessionNonce)

/-- The wire envelope as parsed by Go's `json.Unmarshal` into `envelope`:
missing fields take zero values. -/
structure Envelope where
  v : Int
  t : Int
  n : String
  p : String
  h : String
deriving DecidableEq, Repr

/-- The canonical signed string `"1|" ++ t ++ "|" ++ n ++ "|" ++ p` of
`Seal`/`Open` (Go: `fmt.Sprintf("1|%d|%s|%s", t, n, p)`). -/
def sigInput (t : Int) (n p : String) : String :=
  "1|" ++ toString t ++ "|" ++ n ++ "|" ++ p

/-- `Seal` from bridge.go.  `t` is the sampled clock (`time.Now().UnixMilli()`)
and `nonceBytes` the 16 bytes read from the OS RNG; the RNG-failure branch
(which aborts without producing an envelope) is not modelled. -/
def Seal (mac : MacFun) (sessionKey : List Nat) (payload : List Nat)
    (t : Int) (nonceBytes : List Nat) : Envelope :=
  let n := hexEncode nonceBytes
  let p := base64Encode payload
  let h := hexEncode (mac sessionKey (sigInput t n p))
  ⟨1, t, n, p, h⟩

/-- Nonce cache contents: nonce → receipt time (Unix ms).  Go stores this in
a map; the association list keeps one admissible iteration order (Go's map
iteration order is unspecified). -/
abbrev Cache : Type := List (String × Int)

def maxNonceCache : Nat := 2000

def nonceTTL : Int := 60000

def maxInt64 : Int := 2 ^ 63 - 1

/-- `NonceCache.has`. -/
def cacheHas (c : Cache) (n : String) : Bool := c.any (fun kv => kv.1 == n)

/-- `NonceCache.evictExpired`: delete entries with `now - ts > nonceTTL`. -/
def evictExpired (c : Cache) (now : Int) : Cache :=
  c.filter (fun kv => decide (now - kv.2 ≤ nonceTTL))

/-- Go map assignment `nc.nonces[n] = ts`: replace if present, else add. -/
def cacheInsert (c : Cache) (n : String) (ts : Int) : Cache :=
  if c.any (fun kv => kv.1 == n) then c.map (fun kv => if kv.1 == n then (n, ts) else kv)
  else c ++ [(n, ts)]

/-- The oldest-entry scan of `NonceCache.add`: fold starting from
`oldestKey = ""`, `oldestTs = math.MaxInt64`, taking an entry only when its
timestamp is strictly smaller. -/
def findOldest (c : Cache) : String × Int :=
  c.foldl (fun acc kv => if kv.2 < acc.2 then kv else acc) ("", maxInt64)

/-- `NonceCache.add`: insert the nonce at the current time, then if the map
exceeds `maxNonceCache` entries evict the entry with the smallest timestamp
(if the scan found one). -/
def cacheAdd (c : Cache) (n : String) (now : Int) : Cache :=
  if maxNonceCache < (cacheInsert c n now).length then
    if (findOldest (cacheInsert c n now)).1 = "" then cacheInsert c n now
    else (cacheInsert c n now).eraseP
      (fun kv => kv.1 == (findOldest (cacheInsert c n now)).1)
  else cacheInsert c n now

def timestampToleranceMs : Int := 30000

/-- Two's-complement wrap of Go's `int64` subtraction `now - env.T`. -/
def int64wrap (x : Int) : Int := (x + 2 ^ 63) % 2 ^ 64 - 2 ^ 63

/-- `abs64` from bridge.go (via `math.Abs`; exact for every value the
timestamp check can produce). -/
def abs64 (x : Int) : Int := Int.natAbs x

/-- The timestamp window check of `Open`: `abs64(now-env.T) > 30000`. -/
def tsExpired (now t : Int) : Bool := decide (timestampToleranceMs < abs64 (int64wrap (now - t)))

/-- Mirror of Go's `OpenResult` struct. -/
structure OpenResult where
  valid : Bool
  payload : List Nat
  reason : String
deriving DecidableEq, Repr

/-- `Open` from bridge.go.  `raw` is the envelope as parsed from the wire
bytes (`none` models a `json.Unmarshal` failure).  Returns the result and
the updated cache (Go mutates the cache in place). -/
def Open (mac : MacFun) (sessionKey : List Nat) (raw : Option Envelope)
    (cache : Cache) (now : Int) : OpenResult × Cache :=
  match raw with
  | none => (⟨false, [], "not_json"⟩, cache)
  | some env =>
    if env.v ≠ 1 then (⟨false, [], "bad_version"⟩, cache)
    else if env.n = "" ∨ env.p = "" ∨ env.h = "" then (⟨false, [], "bad_fields"⟩, cache)
    else if env.n.length ≠ 32 then (⟨false, [], "bad_nonce"⟩, cache)
    else
      match hexDecode env.n with
      | none => (⟨false, [], "bad_nonce"⟩, cache)
      | some _ =>
        let expected := mac sessionKey (sigInput env.t env.n env.p)
        match hexDecode env.h with
        | none => (⟨false, [], "bad_hmac"⟩, cache)
        | some actual =>
          if actual ≠ expected then (⟨false, [], "bad_hmac"⟩, cache)
          else if tsExpired now env.t then (⟨false, [], "timestamp_expired"⟩, cache)
          else
            let c1 := evictExpired cache now
            if cacheHas c1 env.n then (⟨false, [], "replay"⟩, c1)
            else
              let c2 := cacheAdd c1 env.n now
              match base64Decode env.p with
              | none => (⟨false, [], "bad_payload"⟩, c2)
              | some payload => (⟨true, payload, ""⟩, c2)

/-! ### OBS WebSocket v5 protocol validation (bridge.go) -/

/-- Monitor configuration (`monitor.Config`), as parsed from
`AgentConfigureMonitor`'s `requestData`. -/
structure MonitorConfig where
  source : String
  pollIntervalMs : Int
  enabled : Bool
deriving DecidableEq, Repr

/-- The relevant projections of the inner `d` object of an OBS v5 frame.
`requestType`/`requestId` are `""` and `requests` is `[]` when the fields are
absent, matching Go's zero values after `json.Unmarshal` (a `d` object that
fails the secondary unmarshal passes validation in Go just as zero values
do).  `requestData` is `none` when the field is absent or not a valid
monitor config. -/
structure ObsData where
  requestType : String
  requestId : String
  requestData : Option MonitorConfig
  requests : List String
deriving DecidableEq, Repr

/-- The minimal OBS v5 wire format `obsMessage`: an `op` and an optional `d`. -/
structure ObsMsg where
  op : Int
  d : Option ObsData
deriving DecidableEq, Repr

inductive Direction where
  | fromAgent
  | toAgent
deriving DecidableEq, Repr

def allowedOpsFromAgent : List Int := [0, 2, 5, 7, 9]

def allowedOpsToAgent : List Int := [1, 6, 8]

/-- `allowedRequestTypes` from bridge.go, verbatim. -/
def allowedRequestTypes : List String :=
  ["GetSceneList", "SetCurrentProgramScene", "GetCurrentProgramScene",
   "CreateScene", "RemoveScene", "SetSceneName",
   "GetSceneItemList", "GetSceneItemEnabled", "SetSceneItemEnabled",
   "GetSceneItemTransform", "SetSceneItemTransform", "RemoveSceneItem",
   "GetSourcesList", "GetSourceActive", "SetSourceFilterEnabled",
   "CreateInput", "GetInputSettings", "SetInputSettings", "SetInputName",
   "GetInputMute", "SetInputMute", "ToggleInputMute", "GetInputVolume", "SetInputVolume",
   "GetStreamStatus", "StartStream", "StopStream", "ToggleStream",
   "GetRecordStatus", "StartRecord", "StopRecord", "PauseRecord", "ResumeRecord",
   "GetReplayBufferStatus", "StartReplayBuffer", "StopReplayBuffer", "SaveReplayBuffer",
   "GetVirtualCamStatus", "StartVirtualCam", "StopVirtualCam",
   "GetStudioModeEnabled", "SetStudioModeEnabled",
   "TriggerMediaInputAction",
   "GetVideoSettings", "GetStats", "GetVersion"]

def allowedRequest (s : String) : Bool := allowedRequestTypes.contains s

/-- Mirror of Go's `ProtocolResult`. -/
structure ProtocolResult where
  valid : Bool
  parsed : Option ObsMsg
  reason : String
deriving DecidableEq, Repr

/-- `ValidateOBSProtocol` from bridge.go.  `payload` is the frame as parsed
from the payload bytes (`none` models a `json.Unmarshal` failure). -/
def ValidateOBSProtocol (payload : Option ObsMsg) (dir : Direction) : ProtocolResult :=
  match payload with
  | none => ⟨false, none, "not_json"⟩
  | some msg =>
    let allowedOps := match dir with
      | .fromAgent => allowedOpsFromAgent
      | .toAgent => allowedOpsToAgent
    if ¬ allowedOps.contains msg.op then
      ⟨false, none, "forbidden_op_" ++ toString msg.op⟩
    else
      match msg.d with
      | none => ⟨true, some msg, ""⟩
      | some dd =>
        if msg.op = 6 ∧ dd.requestType ≠ "" ∧ allowedRequest dd.requestType = false then
          ⟨false, none, "forbidden_request_" ++ dd.requestType⟩
        else
          match (if msg.op = 8 then dd.requests.find? (fun rt => !(rt == "") && !(allowedRequest rt)) else none) with
          | some rt => ⟨false, none, "forbidden_batch_request_" ++ rt⟩
          | none => ⟨true, some msg, ""⟩

/-! ### Relay→OBS pipe (pipeRelayToOBS, tunnel bridge with monitor interception)

One loop iteration of `pipeRelayToOBS` for one frame read from the relay,
as a pure step function.  The JSON parses of the wire bytes are supplied as
parameters: `parseEnv` (envelope bytes → parsed envelope) and `parseObs`
(inner payload bytes → parsed OBS frame); socket writes, channel sends and
`Configure` calls are recorded as effects. -/

inductive FrameIn where
  /-- A non-text WebSocket frame (dropped by the pipe). -/
  | binary
  /-- A text frame whose bytes parse (or fail to parse) as an envelope. -/
  | text (raw : Option Envelope)
deriving DecidableEq, Repr

/-- An item attempted on the relay writer channel by this pipe. -/
inductive QueueItem where
  /-- The synthetic op-7 response to an intercepted `AgentConfigureMonitor`:
  result flag, numeric code, echoed request id. -/
  | syntheticResponse (result : Bool) (code : Int) (requestId : String)
deriving DecidableEq, Repr

/-- Observable effects of one `pipeRelayToOBS` iteration. -/
structure PipeEffects where
  /-- Raw payloads written to the local OBS socket. -/
  toOBS : List (List Nat)
  /-- Items sent (non-blocking) to the relay writer channel. -/
  queued : List QueueItem
  /-- `monitor.Configure` calls. -/
  configured : List MonitorConfig
  /-- Rejection reason logged when the frame was dropped by `Open` or by
  `ValidateOBSProtocol`. -/
  dropLog : Option String
deriving DecidableEq, Repr

def PipeEffects.none : PipeEffects := ⟨[], [], [], Option.none⟩

/-- One iteration of `pipeRelayToOBS` from the tunnel bridge (the variant
with monitor interception): verify the envelope, validate the OBS protocol
in direction to-agent, intercept `AgentConfigureMonitor`, otherwise forward
the raw payload to OBS. -/
def pipeRelayToOBSStep (mac : MacFun) (parseObs : List Nat → Option ObsMsg)
    (sessionKey : List Nat) (frame : FrameIn) (cache : Cache) (now : Int) :
    PipeEffects × Cache :=
  match frame with
  | .binary => (PipeEffects.none, cache)
  | .text raw =>
    let opened := Open mac sessionKey raw cache now
    let res := opened.1
    let c1 := opened.2
    if res.valid = false then ({ PipeEffects.none with dropLog := some res.reason }, c1)
    else
      let check := ValidateOBSProtocol (parseObs res.payload) .toAgent
      if check.valid = false then ({ PipeEffects.none with dropLog := some check.reason }, c1)
      else
        let intercepted : Option PipeEffects :=
          match check.parsed with
          | some m =>
            match m.d with
            | some dd =>
              if m.op = 6 ∧ dd.requestType = "AgentConfigureMonitor" then
                some { PipeEffects.none with
                       configured := match dd.requestData with
                         | some cfg => [cfg]
                         | Option.none => []
                       queued := [.syntheticResponse true 100 dd.requestId] }
              else Option.none
            | Option.none => Option.none
          | Option.none => Option.none
        match intercepted with
        | some eff => (eff, c1)
        | Option.none => ({ PipeEffects.none with toOBS := [res.payload] }, c1)

/-! ### Media monitor (internal/monitor/monitor.go) -/

/-- `mediaStateMap` from monitor.go, verbatim. -/
def mediaStateMapList : List (String × String) :=
  [("OBS_MEDIA_STATE_PLAYING", "normal"),
   ("OBS_MEDIA_STATE_OPENING", "buffering"),
   ("OBS_MEDIA_STATE_BUFFERING", "buffering"),
   ("OBS_MEDIA_STATE_ENDED", "buffering"),
   ("OBS_MEDIA_STATE_ERROR", "buffering"),
   ("OBS_MEDIA_STATE_STOPPED", "buffering"),
   ("OBS_MEDIA_STATE_NONE", "buffering")]

/-- Go map lookup `mediaStateMap[mediaState]`: zero value `""` when absent. -/
def mediaStateLookup (s : String) : String := (mediaStateMapList.lookup s).getD ""

/-- Normalisation performed by `Monitor.pollOBS` on a matched op-7 response:
a `nil` responseData or a missing/empty `mediaState` field becomes
`"OBS_MEDIA_STATE_NONE"`.  The argument is `none` when the poll failed
(read error, or no matching response within 10 frames); `some none` when a
response matched but carried no usable `mediaState`; `some (some ms)` for a
returned media state `ms`. -/
def pollOBSMediaState (resp : Option (Option String)) : Option String :=
  match resp with
  | Option.none => Option.none
  | some Option.none => some "OBS_MEDIA_STATE_NONE"
  | some (some ms) => some (if ms = "" then "OBS_MEDIA_STATE_NONE" else ms)

/-- `eventData` of the synthetic op-5 `AgentSourceState` event built by
`Monitor.sendState`. -/
structure SourceStateEvent where
  inputName : String
  mediaState : String
  state : String
  containingScene : String
deriving DecidableEq, Repr

/-- One tick of `Monitor.pollLoop`: on connect failure emit
`("", "offline", "")`; on poll failure emit `("", "offline", scene)`; else
map the returned media state through `mediaStateMap`, falling back to
`"offline"` when the lookup comes back empty. -/
def pollTickEvent (source containingScene : String) (connectOk : Bool)
    (resp : Option (Option String)) : SourceStateEvent :=
  if connectOk = false then ⟨source, "", "offline", ""⟩
  else
    match pollOBSMediaState resp with
    | Option.none => ⟨source, "", "offline", containingScene⟩
    | some ms =>
      let st := mediaStateLookup ms
      ⟨source, ms, if st = "" then "offline" else st, containingScene⟩

/-! ### Reconnection backoff (internal/agent/reconnect.go)

Delays are modelled in seconds over `ℚ`.  Go computes in `float64`
nanoseconds; for every attempt the intermediate values (`1e9·2^attempt`,
the cap `6e10`, and the product with the jitter factor) stay far below
2^53 or are exactly representable, so the rational model matches the float
computation on the properties proved here.  `u` is the value of
`rand.Float64()`, uniform in `[0, 1)`. -/

def baseDelaySec : ℚ := 1

def maxDelaySec : ℚ := 60

/-- `backoff(attempt)` from reconnect.go: exponential with cap, then
±25% jitter. -/
def backoffQ (attempt : Nat) (u : ℚ) : ℚ :=
  let delay := baseDelaySec * 2 ^ attempt
  let delay := if maxDelaySec < delay then maxDelaySec else delay
  let jitter := delay * (1/4) * (2 * u - 1)
  delay + jitter

/-! ### Relay session handshake (WaitForSession, tunnel bridge variant with
close-code classification) -/

/-- A handshake JSON frame as parsed by `WaitForSession` (zero values for
absent fields). -/
structure HandshakeMsg where
  type : String
  nonce : String
  version : String
  downloadURL : String
deriving DecidableEq, Repr

/-- One `ReadMessage` result during the handshake: an error (with or
without close code 4100), or a frame (`none` when `json.Unmarshal` fails). -/
inductive HandshakeRead where
  | readErr (isClose4100 : Bool)
  | frame (msg : Option HandshakeMsg)
deriving DecidableEq, Repr

/-- Result of `WaitForSession`: the error variants, the derived session
key, or `blocked` when the modelled read sequence is exhausted (the real
function would still be blocking on the socket). -/
inductive SessionOutcome where
  | tokenRejected
  | handshakeFailed
  | missingNonce
  | connectedBeforeSession
  | established (sessionKey : List Nat)
  | blocked
deriving DecidableEq, Repr

/-- `WaitForSession` from the tunnel bridge: reads frames until
`session` + `connected`; a read error with close code 4100 is classified as
token rejection (`ErrTokenRejected`); unparseable frames,
`update_available` and unknown types are skipped. -/
def WaitForSession (mac : MacFun) (token : String) :
    List HandshakeRead → Option (List Nat) → SessionOutcome
  | [], _ => .blocked
  | .readErr is4100 :: _, _ => if is4100 then .tokenRejected else .handshakeFailed
  | .frame Option.none :: rest, sk => WaitForSession mac token rest sk
  | .frame (some m) :: rest, sk =>
    if m.type = "session" then
      if m.nonce = "" then .missingNonce
      else WaitForSession mac token rest (some (DeriveSessionKey mac token m.nonce))
    else if m.type = "connected" then
      match sk with
      | Option.none => .connectedBeforeSession
      | some k => .established k
    else WaitForSession mac token rest sk

/-! ### Supervisor loop (Agent.Start, internal/agent/config.go) -/

/-- Classification of one `Agent.run` return value as seen by `Start`:
`ok` is a nil error (clean shutdown), `tokenRejected` is
`*tunnel.ErrTokenRejected`, everything else is transient. -/
inductive RunOutcome where
  | ok
  | tokenRejected
  | transient
deriving DecidableEq, Repr

/-- How `Agent.run` classifies a failed `WaitForSession`:
`ErrTokenRejected` is passed through, other handshake errors are wrapped
(transient); `established` proceeds to the bridge and `blocked` does not
return. -/
def runHandshakeError : SessionOutcome → Option RunOutcome
  | .tokenRejected => some .tokenRejected
  | .handshakeFailed => some .transient
  | .missingNonce => some .transient
  | .connectedBeforeSession => some .transient
  | .established _ => Option.none
  | .blocked => Option.none

/-- Observable events of the `Agent.Start` loop. -/
inductive SupervisorEvent where
  /-- One call of `Agent.run` (one connection attempt). -/
  | runAttempt
  /-- A `setStatus` call. -/
  | status (s : String)
  /-- A backoff sleep, in seconds. -/
  | sleep (seconds : ℚ)
deriving DecidableEq, Repr

/-- The `Agent.Start` loop over a given sequence of `run` outcomes, with
the per-iteration `rand.Float64()` samples supplied in `jitters`
(cancellation paths are not modelled).  `attempt` starts at 0; it is
incremented before `backoff(attempt)` is called, and never reset. -/
def startLoop (attempt : Nat) (outcomes : List RunOutcome) (jitters : List ℚ) :
    List SupervisorEvent :=
  match outcomes with
  | [] => []
  | o :: rest =>
    SupervisorEvent.runAttempt ::
    (match o with
     | .ok => [.status "stopped"]
     | .tokenRejected => [.status "reconnecting", .status "token_rejected"]
     | .transient =>
       .status "reconnecting" ::
       .sleep (backoffQ (attempt + 1) (jitters.headD 0)) ::
       startLoop (attempt + 1) rest jitters.tail)

/-! ### Concrete artifacts shared by witnesses and counterexamples -/

/-- Stand-in for the abstract HMAC function in concrete instantiations:
constant one-byte digest. -/
def dummyMac : MacFun := fun _ _ => [0]

/-- Sixteen zero bytes, a concrete RNG output for `Seal`. -/
def nonce16zeros : List Nat := List.replicate 16 0

/-- A concrete one-byte payload. -/
def payload1 : List Nat := [123]

/-- A concrete sealed envelope: key `[]`, payload `payload1`, clock 0. -/
def envAt0 : Envelope := Seal dummyMac [] payload1 0 nonce16zeros

/-- A concrete parsed `AgentConfigureMonitor` op-6 frame. -/
def acmMsg : ObsMsg :=
  ⟨6, some ⟨"AgentConfigureMonitor", "r1", some ⟨"stream1", 100, true⟩, []⟩⟩

/-- A concrete payload parser mapping every byte string to `acmMsg`. -/
def acmParse : List Nat → Option ObsMsg := fun _ => some acmMsg

/-! ### C7 — token rejection is terminal -/

/-- C7: a relay close with code 4100 during the handshake makes
`WaitForSession` return the distinct token-rejected error, `run` passes it
through, and the `Start` loop ends with status `token_rejected` after that
single connection attempt: the trace contains exactly one `runAttempt`, no
backoff sleep, and no event after `token_rejected`, whatever outcomes would
have followed. -/
theorem claim_C7_token_rejected_terminal (mac : MacFun) (token : String)
    (rest : List HandshakeRead) (sk : Option (List Nat)) (attempt : Nat)
    (later : List RunOutcome) (jitters : List ℚ) :
    WaitForSession mac token (.readErr true :: rest) sk = .tokenRejected ∧
    runHandshakeError .tokenRejected = some .tokenRejected ∧
    startLoop attempt (.tokenRejected :: later) jitters =
      [.runAttempt, .status "reconnecting", .status "token_rejected"] :=
  ⟨rfl, rfl, rfl⟩

/-! ### C9 — monitor media-state mapping -/

/-- C9 counterexample: `pollLoop` maps a returned media state that is not a
key of `mediaStateMap` to `"offline"`, not `"buffering"` as the claim
states; and a response with a missing `mediaState` value is normalised by
`pollOBS` to `"OBS_MEDIA_STATE_NONE"` and hence yields `"buffering"`, not
`"offline"`. -/
theorem claim_C9_counterexample :
    pollTickEvent "stream1" "scene1" true (some (some "OBS_MEDIA_STATE_UNKNOWN")) =
      ⟨"stream1", "OBS_MEDIA_STATE_UNKNOWN", "offline", "scene1"⟩ ∧
    "offline" ≠ "buffering" ∧
    pollTickEvent "stream1" "scene1" true (some Option.none) =
      ⟨"stream1", "OBS_MEDIA_STATE_NONE", "buffering", "scene1"⟩ := by
  refine ⟨by decide, by decide, by decide⟩

/-- C9 (amended): `OBS_MEDIA_STATE_PLAYING` maps to `"normal"`; the six
other `OBS_MEDIA_STATE_*` constants of `mediaStateMap` map to
`"buffering"`; any other returned media state maps to `"offline"`; a
missing `mediaState` value is normalised to `"OBS_MEDIA_STATE_NONE"` and
yields `"buffering"`; a connect failure or poll failure yields
`"offline"`. -/
theorem claim_C9_media_state_mapping :
    (∀ source scene : String,
       pollTickEvent source scene true (some (some "OBS_MEDIA_STATE_PLAYING")) =
         ⟨source, "OBS_MEDIA_STATE_PLAYING", "normal", scene⟩) ∧
    (∀ (source scene s : String),
       s ∈ ["OBS_MEDIA_STATE_OPENING", "OBS_MEDIA_STATE_BUFFERING",
            "OBS_MEDIA_STATE_ENDED", "OBS_MEDIA_STATE_ERROR",
            "OBS_MEDIA_STATE_STOPPED", "OBS_MEDIA_STATE_NONE"] →
       pollTickEvent source scene true (some (some s)) = ⟨source, s, "buffering", scene⟩) ∧
    (∀ (source scene s : String), s ≠ "" → mediaStateLookup s = "" →
       pollTickEvent source scene true (some (some s)) = ⟨source, s, "offline", scene⟩) ∧
    (∀ source scene : String,
       pollTickEvent source scene true (some Option.none) =
         ⟨source, "OBS_MEDIA_STATE_NONE", "buffering", scene⟩) ∧
    (∀ (source scene : String) (resp : Option (Option String)),
       pollTickEvent source scene false resp = ⟨source, "", "offline", ""⟩) ∧
    (∀ source scene : String,
       pollTickEvent source scene true Option.none = ⟨source, "", "offline", scene⟩) := by
  refine ⟨fun source scene => rfl, ?_, ?_, fun source scene => rfl,
    fun source scene resp => rfl, fun source scene => rfl⟩
  · intro source scene s hs
    simp only [List.mem_cons, List.mem_singleton] at hs
    rcases hs with rfl | rfl | rfl | rfl | rfl | rfl | h
    · rfl
    · rfl
    · rfl
    · rfl
    · rfl
    · rfl
    · exact absurd h (List.not_mem_nil s)
  · intro source scene s hs hlook
    simp only [pollTickEvent, pollOBSMediaState, if_neg hs, hlook]
    simp [hs]

/-- C9 witness: the amended mapping evaluated at a known buffering state and
at an unrecognised state. -/
theorem claim_C9_media_state_mapping_witness :
    pollTickEvent "stream1" "scene1" true (some (some "OBS_MEDIA_STATE_OPENING")) =
      ⟨"stream1", "OBS_MEDIA_STATE_OPENING", "buffering", "scene1"⟩ ∧
    pollTickEvent "stream1" "scene1" true (some (some "weird")) =
      ⟨"stream1", "weird", "offline", "scene1"⟩ :=
  ⟨claim_C9_media_state_mapping.2.1 "stream1" "scene1" _ (by decide),
   claim_C9_media_state_mapping.2.2.1 "stream1" "scene1" "weird" (by decide) (by decide)⟩

/-! ### C5 — request-type whitelist -/

/-- C5 counterexample: an op-6 payload whose `d` carries no `requestType`
(Go zero value `""`) passes validation in direction relay-to-agent even
though `""` is not a member of the whitelist — so validation succeeding
does not imply membership; likewise an op-6 payload with no `d` object at
all passes. -/
theorem claim_C5_counterexample :
    (ValidateOBSProtocol (some ⟨6, some ⟨"", "", Option.none, []⟩⟩) .toAgent).valid = true ∧
    (ValidateOBSProtocol (some ⟨6, Option.none⟩) .toAgent).valid = true ∧
    allowedRequest "" = false := by
  refine ⟨by decide, by decide, by decide⟩

/-- C5 (amended): in direction relay-to-agent, an op-6 payload whose
`requestType` is present (non-empty) and not whitelisted is rejected with
reason `forbidden_request_<name>`; an op-6 payload whose `requestType` is
absent or whitelisted passes; an op-8 payload containing any element with a
present, non-whitelisted `requestType` is rejected with reason
`forbidden_batch_request_<name>` for such an element; an op-8 payload all
of whose elements have absent or whitelisted request types passes. -/
theorem claim_C5_request_whitelist :
    (∀ dd : ObsData, dd.requestType ≠ "" → allowedRequest dd.requestType = false →
       ValidateOBSProtocol (some ⟨6, some dd⟩) .toAgent =
         ⟨false, Option.none, "forbidden_request_" ++ dd.requestType⟩) ∧
    (∀ dd : ObsData, dd.requestType = "" ∨ allowedRequest dd.requestType = true →
       (ValidateOBSProtocol (some ⟨6, some dd⟩) .toAgent).valid = true) ∧
    (∀ dd : ObsData, (∃ rt ∈ dd.requests, rt ≠ "" ∧ allowedRequest rt = false) →
       (ValidateOBSProtocol (some ⟨8, some dd⟩) .toAgent).valid = false ∧
       ∃ rt ∈ dd.requests, rt ≠ "" ∧ allowedRequest rt = false ∧
         (ValidateOBSProtocol (some ⟨8, some dd⟩) .toAgent).reason =
           "forbidden_batch_request_" ++ rt) ∧
    (∀ dd : ObsData, (∀ rt ∈ dd.requests, rt = "" ∨ allowedRequest rt = true) →
       (ValidateOBSProtocol (some ⟨8, some dd⟩) .toAgent).valid = true) := by
  have hfind : ∀ dd : ObsData,
      (ValidateOBSProtocol (some ⟨8, some dd⟩) .toAgent) =
        match dd.requests.find? (fun rt => !(rt == "") && !(allowedRequest rt)) with
        | some rt => ⟨false, Option.none, "forbidden_batch_request_" ++ rt⟩
        | Option.none => ⟨true, some ⟨8, some dd⟩, ""⟩ := by
    intro dd
    simp [ValidateOBSProtocol, allowedOpsToAgent]
  refine ⟨?_, ?_, ?_, ?_⟩
  · intro dd hne hal
    simp [ValidateOBSProtocol, allowedOpsToAgent, hne, hal]
  · intro dd h
    rcases h with h | h <;> simp [ValidateOBSProtocol, allowedOpsToAgent, h]
  · intro dd h
    rcases h with ⟨rt, hmem, hne, hal⟩
    have hsome : (dd.requests.find? (fun rt => !(rt == "") && !(allowedRequest rt))).isSome := by
      rw [List.find?_isSome]
      exact ⟨rt, hmem, by simp [hne, hal]⟩
    rcases Option.isSome_iff_exists.mp hsome with ⟨rt0, h0⟩
    have hmem0 : rt0 ∈ dd.requests := List.mem_of_find?_eq_some h0
    have hp0 := List.find?_some h0
    simp only [Bool.and_eq_true, Bool.not_eq_true', beq_eq_false_iff_ne, ne_eq] at hp0
    have hne0 : rt0 ≠ "" := hp0.1
    have hal0 : allowedRequest rt0 = false := hp0.2
    rw [hfind dd, h0]
    exact ⟨rfl, rt0, hmem0, hne0, hal0, rfl⟩
  · intro dd h
    have hnone : dd.requests.find? (fun rt => !(rt == "") && !(allowedRequest rt)) =
        Option.none := by
      rw [List.find?_eq_none]
      intro rt hmem
      rcases h rt hmem with h1 | h1 <;> simp [h1]
    rw [hfind dd, hnone]

/-- C5 witness: the amended statement evaluated on concrete op-6 and op-8
payloads with the non-whitelisted request type `Shutdown` and on a
whitelisted `GetVersion` request. -/
theorem claim_C5_request_whitelist_witness :
    ValidateOBSProtocol (some ⟨6, some ⟨"Shutdown", "r1", Option.none, []⟩⟩) .toAgent =
      ⟨false, Option.none, "forbidden_request_Shutdown"⟩ ∧
    (ValidateOBSProtocol (some ⟨6, some ⟨"GetVersion", "r1", Option.none, []⟩⟩) .toAgent).valid
      = true ∧
    (ValidateOBSProtocol
      (some ⟨8, some ⟨"", "", Option.none, ["GetVersion", "Shutdown"]⟩⟩) .toAgent).valid
      = false :=
  ⟨claim_C5_request_whitelist.1 ⟨"Shutdown", "r1", Option.none, []⟩ (by decide) (by decide),
   claim_C5_request_whitelist.2.1 ⟨"GetVersion", "r1", Option.none, []⟩ (Or.inr (by decide)),
   (claim_C5_request_whitelist.2.2.1 ⟨"", "", Option.none, ["GetVersion", "Shutdown"]⟩
     ⟨"Shutdown", by decide, by decide, by decide⟩).1⟩

/-! ### C10 — empty payload is never accepted -/

/-- C10: sealing a zero-length payload produces an envelope whose `p` field
is the empty string; `Open` rejects every envelope with an empty `p`
(with reason `bad_fields` once the version check has passed, as it has for
any sealed envelope), so an envelope sealed from an empty payload is never
accepted. -/
theorem claim_C10_empty_payload_rejected (mac : MacFun) (key : List Nat) (t : Int)
    (nonceBytes : List Nat) :
    (Seal mac key [] t nonceBytes).p = "" ∧
    (∀ (env : Envelope) (c : Cache) (now : Int), env.p = "" →
        (Open mac key (some env) c now).1.valid = false) ∧
    (∀ (env : Envelope) (c : Cache) (now : Int), env.p = "" → env.v = 1 →
        (Open mac key (some env) c now).1 = ⟨false, [], "bad_fields"⟩) ∧
    (∀ (c : Cache) (now : Int),
        (Open mac key (some (Seal mac key [] t nonceBytes)) c now).1.valid = false) := by
  have hfields : ∀ (env : Envelope) (c : Cache) (now : Int), env.p = "" → env.v = 1 →
      (Open mac key (some env) c now).1 = ⟨false, [], "bad_fields"⟩ := by
    intro env c now hp hv
    simp [Open, hp, hv]
  have hvalid : ∀ (env : Envelope) (c : Cache) (now : Int), env.p = "" →
      (Open mac key (some env) c now).1.valid = false := by
    intro env c now hp
    by_cases hv : env.v = 1
    · rw [hfields env c now hp hv]
    · simp [Open, hv]
  exact ⟨rfl, hvalid, hfields,
    fun c now => hvalid (Seal mac key [] t nonceBytes) c now rfl⟩

/-- C10 witness: concrete empty-payload seal/open round trip and a concrete
envelope with an empty `p` field. -/
theorem claim_C10_empty_payload_rejected_witness :
    (Seal dummyMac [] [] 0 nonce16zeros).p = "" ∧
    (Open dummyMac [] (some ⟨1, 0, "ab", "", "cd"⟩) [] 0).1 = ⟨false, [], "bad_fields"⟩ ∧
    (Open dummyMac [] (some (Seal dummyMac [] [] 0 nonce16zeros)) [] 0).1.valid = false :=
  ⟨(claim_C10_empty_payload_rejected dummyMac [] 0 nonce16zeros).1,
   (claim_C10_empty_payload_rejected dummyMac [] 0 nonce16zeros).2.2.1
     ⟨1, 0, "ab", "", "cd"⟩ [] 0 rfl rfl,
   (claim_C10_empty_payload_rejected dummyMac [] 0 nonce16zeros).2.2.2 [] 0⟩

/-! ### C2 — AgentConfigureMonitor interception -/

/-- C2 (code behaviour at the claimed input): for every frame whose envelope
opens valid and whose payload parses as an op-6 request with
`requestType = "AgentConfigureMonitor"`, the relay-to-OBS pipe drops the
frame at protocol validation with reason
`forbidden_request_AgentConfigureMonitor` — `AgentConfigureMonitor` is not
in `allowedRequestTypes` and `ValidateOBSProtocol` runs before the
interception branch.  Nothing is written to the OBS socket, `Configure` is
never called, and no synthetic op-7 response is queued: the interception
and response logic of `pipeRelayToOBS` is unreachable. -/
theorem claim_C2_acm_dropped_before_interception (mac : MacFun)
    (parseObs : List Nat → Option ObsMsg) (key : List Nat) (raw : Option Envelope)
    (c : Cache) (now : Int) (msg : ObsMsg) (dd : ObsData)
    (hopen : (Open mac key raw c now).1.valid = true)
    (hparse : parseObs (Open mac key raw c now).1.payload = some msg)
    (hop : msg.op = 6) (hd : msg.d = some dd)
    (hrt : dd.requestType = "AgentConfigureMonitor") :
    pipeRelayToOBSStep mac parseObs key (.text raw) c now =
      (⟨[], [], [], some "forbidden_request_AgentConfigureMonitor"⟩,
        (Open mac key raw c now).2) := by
  have hacm : allowedRequest "AgentConfigureMonitor" = false := by decide
  have hcheck : ValidateOBSProtocol (parseObs (Open mac key raw c now).1.payload) .toAgent =
      ⟨false, Option.none, "forbidden_request_AgentConfigureMonitor"⟩ := by
    rw [hparse]
    simp [ValidateOBSProtocol, allowedOpsToAgent, hop, hd, hrt, hacm]
  simp [pipeRelayToOBSStep, hopen, hcheck, PipeEffects.none]

/-- C2 witness: a concrete valid envelope whose payload is a parsed
`AgentConfigureMonitor` op-6 request is dropped, not intercepted. -/
theorem claim_C2_acm_dropped_witness :
    pipeRelayToOBSStep dummyMac acmParse [] (.text (some envAt0)) [] 0 =
      (⟨[], [], [], some "forbidden_request_AgentConfigureMonitor"⟩,
        (Open dummyMac [] (some envAt0) [] 0).2) :=
  claim_C2_acm_dropped_before_interception dummyMac acmParse [] (some envAt0) [] 0 acmMsg
    ⟨"AgentConfigureMonitor", "r1", some ⟨"stream1", 100, true⟩, []⟩
    (by decide) rfl rfl rfl rfl

/-! ### C8 — reconnection backoff -/

/-- Closed form of the capped exponential delay before jitter. -/
theorem backoffQ_eq (attempt : Nat) (u : ℚ) :
    backoffQ attempt u =
      min 60 (2 ^ attempt) * (1 + (1/4) * (2 * u - 1)) := by
  simp only [backoffQ, baseDelaySec, maxDelaySec, one_mul]
  split_ifs with h
  · rw [min_eq_left (le_of_lt h)]
    ring
  · rw [min_eq_right (not_lt.mp h)]
    ring

/-- General jittered bounds for the capped exponential delay. -/
theorem backoffQ_bounds (attempt : Nat) (u : ℚ) (hu0 : 0 ≤ u) (hu1 : u < 1) :
    3/4 * min 60 ((2 : ℚ) ^ attempt) ≤ backoffQ attempt u ∧
    backoffQ attempt u ≤ 5/4 * min 60 ((2 : ℚ) ^ attempt) := by
  have hT : (0 : ℚ) < min 60 (2 ^ attempt) :=
    lt_min (by norm_num) (pow_pos (by norm_num) attempt)
  rw [backoffQ_eq]
  constructor
  · nlinarith
  · nlinarith

/-- C8 counterexample: after the first of three consecutive dial failures
the supervisor sleeps `backoff(1)`, which with zero jitter is exactly 2 s —
not within ±25% of 1 s as the claim's "approximately 1 s, 2 s, 4 s"
asserts; the three successive delays with zero jitter are 2 s, 4 s, 8 s. -/
theorem claim_C8_counterexample :
    backoffQ 1 (1/2) = 2 ∧
    ¬(3/4 * 1 ≤ (2 : ℚ) ∧ (2 : ℚ) ≤ 5/4 * 1) ∧
    startLoop 0 [.transient, .transient, .transient] [1/2, 1/2, 1/2] =
      [.runAttempt, .status "reconnecting", .sleep 2,
       .runAttempt, .status "reconnecting", .sleep 4,
       .runAttempt, .status "reconnecting", .sleep 8] := by
  have h1 : backoffQ 1 (1/2) = 2 := by rw [backoffQ_eq]; norm_num
  have h2 : backoffQ 2 (1/2) = 4 := by rw [backoffQ_eq]; norm_num
  have h3 : backoffQ 3 (1/2) = 8 := by rw [backoffQ_eq]; norm_num
  refine ⟨h1, by norm_num, ?_⟩
  have e : startLoop 0 [.transient, .transient, .transient] [1/2, 1/2, 1/2] =
      [.runAttempt, .status "reconnecting", .sleep (backoffQ 1 (1/2)),
       .runAttempt, .status "reconnecting", .sleep (backoffQ 2 (1/2)),
       .runAttempt, .status "reconnecting", .sleep (backoffQ 3 (1/2))] := rfl
  rw [e, h1, h2, h3]

/-- C8 (amended): after N ≥ 1 consecutive session failures the supervisor's
next sleep is `backoff(N)`, within `[0.75, 1.25] · min(60, 2^N)` seconds
(the claim's general formula, confirmed); after three consecutive dial
failures the three successive delays are `backoff(1)`, `backoff(2)`,
`backoff(3)` — approximately 2 s, 4 s, 8 s (each ±25%), not 1 s, 2 s, 4 s. -/
theorem claim_C8_backoff_bounds (N : Nat) (u u1 u2 u3 : ℚ)
    (hN : 1 ≤ N) (hu0 : 0 ≤ u) (hu1 : u < 1)
    (h10 : 0 ≤ u1) (h11 : u1 < 1) (h20 : 0 ≤ u2) (h21 : u2 < 1)
    (h30 : 0 ≤ u3) (h31 : u3 < 1) :
    (3/4 * min 60 ((2 : ℚ) ^ N) ≤ backoffQ N u ∧
      backoffQ N u ≤ 5/4 * min 60 ((2 : ℚ) ^ N)) ∧
    startLoop 0 [.transient, .transient, .transient] [u1, u2, u3] =
      [.runAttempt, .status "reconnecting", .sleep (backoffQ 1 u1),
       .runAttempt, .status "reconnecting", .sleep (backoffQ 2 u2),
       .runAttempt, .status "reconnecting", .sleep (backoffQ 3 u3)] ∧
    (3/2 ≤ backoffQ 1 u1 ∧ backoffQ 1 u1 ≤ 5/2) ∧
    (3 ≤ backoffQ 2 u2 ∧ backoffQ 2 u2 ≤ 5) ∧
    (6 ≤ backoffQ 3 u3 ∧ backoffQ 3 u3 ≤ 10) := by
  have b1 := backoffQ_bounds 1 u1 h10 h11
  have b2 := backoffQ_bounds 2 u2 h20 h21
  have b3 := backoffQ_bounds 3 u3 h30 h31
  have m1 : min (60 : ℚ) (2 ^ 1) = 2 := by norm_num
  have m2 : min (60 : ℚ) (2 ^ 2) = 4 := by norm_num
  have m3 : min (60 : ℚ) (2 ^ 3) = 8 := by norm_num
  rw [m1] at b1
  rw [m2] at b2
  rw [m3] at b3
  refine ⟨backoffQ_bounds N u hu0 hu1, by simp [startLoop], ?_, ?_, ?_⟩
  · constructor <;> [linarith [b1.1]; linarith [b1.2]]
  · constructor <;> [linarith [b2.1]; linarith [b2.2]]
  · constructor <;> [linarith [b3.1]; linarith [b3.2]]

/-- C8 witness: the amended bounds at N = 6 failures, zero jitter. -/
theorem claim_C8_backoff_bounds_witness :
    3/4 * min 60 ((2 : ℚ) ^ 6) ≤ backoffQ 6 (1/2) ∧
    backoffQ 6 (1/2) ≤ 5/4 * min 60 ((2 : ℚ) ^ 6) :=
  (claim_C8_backoff_bounds 6 (1/2) (1/2) (1/2) (1/2) (by norm_num) (by norm_num)
    (by norm_num) (by norm_num) (by norm_num) (by norm_num) (by norm_num)
    (by norm_num) (by norm_num)).1

/-! ### Nonce-cache lemmas -/

theorem foldl_oldest_mem (c : Cache) (init : String × Int) :
    c.foldl (fun acc kv => if kv.2 < acc.2 then kv else acc) init = init ∨
    c.foldl (fun acc kv => if kv.2 < acc.2 then kv else acc) init ∈ c := by
  induction c generalizing init with
  | nil => exact Or.inl rfl
  | cons kv rest ih =>
    simp only [List.foldl_cons]
    rcases ih (if kv.2 < init.2 then kv else init) with h | h
    · rw [h]
      split
      · exact Or.inr (List.mem_cons_self _ _)
      · exact Or.inl rfl
    · exact Or.inr (List.mem_cons_of_mem _ h)

theorem foldl_oldest_le (c : Cache) (init : String × Int) :
    (c.foldl (fun acc kv => if kv.2 < acc.2 then kv else acc) init).2 ≤ init.2 ∧
    ∀ kv ∈ c, (c.foldl (fun acc kv => if kv.2 < acc.2 then kv else acc) init).2 ≤ kv.2 := by
  induction c generalizing init with
  | nil => simp
  | cons kv rest ih =>
    simp only [List.foldl_cons]
    have h := ih (if kv.2 < init.2 then kv else init)
    have hstep : (if kv.2 < init.2 then kv else init).2 ≤ init.2 := by
      split
      · exact le_of_lt ‹_›
      · exact le_refl _
    have hstepkv : (if kv.2 < init.2 then kv else init).2 ≤ kv.2 := by
      split
      · exact le_refl _
      · exact le_of_not_lt ‹_›
    refine ⟨le_trans h.1 hstep, ?_⟩
    intro e he
    rcases List.mem_cons.mp he with rfl | he'
    · exact le_trans h.1 hstepkv
    · exact h.2 e he'

theorem findOldest_min (c : Cache) : ∀ kv ∈ c, (findOldest c).2 ≤ kv.2 :=
  (foldl_oldest_le c ("", maxInt64)).2

theorem findOldest_mem (c : Cache) (kv : String × Int) (hkv : kv ∈ c)
    (hlt : kv.2 < maxInt64) : findOldest c ∈ c := by
  rcases foldl_oldest_mem c ("", maxInt64) with h | h
  · exfalso
    have h1 : (findOldest c).2 ≤ kv.2 := findOldest_min c kv hkv
    have h2 : (findOldest c).2 = maxInt64 := by rw [findOldest, h]
    omega
  · exact h

theorem cacheInsert_length (c : Cache) (n : String) (ts : Int) :
    (cacheInsert c n ts).length ≤ c.length + 1 := by
  unfold cacheInsert
  split
  · simp
  · simp

theorem mem_cacheInsert_self (c : Cache) (n : String) (ts : Int) :
    (n, ts) ∈ cacheInsert c n ts := by
  unfold cacheInsert
  split
  · rename_i h
    obtain ⟨kv, hkv, hbeq⟩ := List.any_eq_true.mp h
    refine List.mem_map.mpr ⟨kv, hkv, ?_⟩
    simp [hbeq]
  · simp

theorem mem_cacheInsert_elim (c : Cache) (n : String) (ts : Int) :
    ∀ kv ∈ cacheInsert c n ts, kv ∈ c ∨ kv = (n, ts) := by
  unfold cacheInsert
  split
  · intro kv hkv
    obtain ⟨kv0, hkv0, heq⟩ := List.mem_map.mp hkv
    by_cases hb : (kv0.1 == n) = true
    · right
      rw [← heq]
      simp [hb]
    · left
      rw [← heq]
      simp only [hb, if_false]
      exact hkv0
  · intro kv hkv
    rcases List.mem_append.mp hkv with h | h
    · exact Or.inl h
    · right
      simpa using h

/-- C6: starting from a cache within the 2000-entry bound whose keys are
non-empty (as every nonce admitted through `Open` is) and with the clock
below `math.MaxInt64` ms, `NonceCache.add` keeps the cache within the
bound; and whenever the insertion overflows the bound, the entry removed
is one carrying the minimum receipt timestamp of the whole cache (new
entry included), i.e. the oldest entry by timestamp. -/
theorem claim_C6_cache_bound_and_oldest_eviction (c : Cache) (n : String) (now : Int)
    (hlen : c.length ≤ maxNonceCache) (hn : n ≠ "")
    (hkeys : ∀ kv ∈ c, kv.1 ≠ "") (hnow : now < maxInt64) :
    (cacheAdd c n now).length ≤ maxNonceCache ∧
    (maxNonceCache < (cacheInsert c n now).length →
      findOldest (cacheInsert c n now) ∈ cacheInsert c n now ∧
      (∀ kv ∈ cacheInsert c n now, (findOldest (cacheInsert c n now)).2 ≤ kv.2) ∧
      cacheAdd c n now =
        (cacheInsert c n now).eraseP
          (fun kv => kv.1 == (findOldest (cacheInsert c n now)).1)) := by
  set c1 := cacheInsert c n now with hc1
  have hmemnew : (n, now) ∈ c1 := mem_cacheInsert_self c n now
  have hold_mem : maxNonceCache < c1.length → findOldest c1 ∈ c1 := fun _ =>
    findOldest_mem c1 (n, now) hmemnew hnow
  have hold_ne : findOldest c1 ∈ c1 → (findOldest c1).1 ≠ "" := by
    intro hmem
    rcases mem_cacheInsert_elim c n now _ hmem with h | h
    · exact hkeys _ h
    · rw [h]
      exact hn
  constructor
  · unfold cacheAdd
    rw [← hc1]
    split
    · rename_i hover
      rw [if_neg (hold_ne (hold_mem hover))]
      have herase : (c1.eraseP (fun kv => kv.1 == (findOldest c1).1)).length =
          c1.length - 1 :=
        List.length_eraseP_of_mem (hold_mem hover) (by simp)
      have hinslen := cacheInsert_length c n now
      rw [← hc1] at hinslen
      omega
    · rename_i hover
      omega
  · intro hover
    refine ⟨hold_mem hover, findOldest_min c1, ?_⟩
    unfold cacheAdd
    rw [← hc1, if_pos hover, if_neg (hold_ne (hold_mem hover))]

/-- C6 witness: a concrete full cache of 2000 entries; adding a fresh nonce
keeps the size at 2000 and evicts the oldest entry. -/
theorem claim_C6_cache_bound_witness :
    ((List.range 2000).map (fun i => (hexEncode [i / 256, i % 256], (i : Int)))).length
        ≤ maxNonceCache ∧
    (cacheAdd ((List.range 2000).map (fun i => (hexEncode [i / 256, i % 256], (i : Int))))
        "aabb" 50000).length ≤ maxNonceCache :=
  have happ := claim_C6_cache_bound_and_oldest_eviction
    ((List.range 2000).map (fun i => (hexEncode [i / 256, i % 256], (i : Int))))
    "aabb" 50000 (by simp [maxNonceCache]) (by decide)
    (by
      intro kv hkv
      obtain ⟨i, _, heq⟩ := List.mem_map.mp hkv
      rw [← heq]
      simp [hexEncode, hexEncodeList, String.ext_iff])
    (by decide)
  ⟨by simp [maxNonceCache], happ.1⟩

/-! ### String-level helpers for the envelope round trip -/

theorem hexEncode_length (bs : List Nat) : (hexEncode bs).length = 2 * bs.length := by
  have : (hexEncode bs).length = (hexEncodeList bs).length := rfl
  rw [this, hexEncodeList_length]

theorem hexEncode_ne_empty (bs : List Nat) (h : bs ≠ []) : hexEncode bs ≠ "" := by
  match bs, h with
  | b :: rest, _ => simp [hexEncode, hexEncodeList, String.ext_iff]

theorem hexDecode_hexEncode (bs : List Nat) (h : ∀ b ∈ bs, b < 256) :
    hexDecode (hexEncode bs) = some bs :=
  hexDecodeList_hexEncodeList bs h

theorem base64Decode_base64Encode (bs : List Nat) (h : ∀ b ∈ bs, b < 256) :
    base64Decode (base64Encode bs) = some bs :=
  b64DecodeChars_b64EncodeChars bs h

theorem int64wrap_small (x : Int) (h : x.natAbs ≤ 60000) : int64wrap x = x := by
  have h63 : (2 : Int) ^ 63 = 9223372036854775808 := by norm_num
  have h64 : (2 : Int) ^ 64 = 18446744073709551616 := by norm_num
  unfold int64wrap
  rw [h63, h64]
  omega

theorem tsExpired_eq_false_of (now t : Int) (h : (now - t).natAbs ≤ 30000) :
    tsExpired now t = false := by
  rw [tsExpired, int64wrap_small (now - t) (by omega)]
  simp only [abs64, timestampToleranceMs, decide_eq_false_iff_not, not_lt]
  omega

/-! ### C1 — seal/open round trip -/

/-- C1: for every key and every non-empty payload, opening a freshly sealed
envelope against a fresh nonce cache succeeds and recovers the payload.
The seal's clock value is also the opening clock (`fresh` seal), the RNG
gave 16 bytes, and the digest of the abstract HMAC is a non-empty byte
string (HMAC-SHA256 digests are 32 bytes). -/
theorem claim_C1_seal_open_roundtrip (mac : MacFun) (key payload : List Nat) (t : Int)
    (nonceBytes : List Nat)
    (hpl : payload ≠ []) (hpb : ∀ b ∈ payload, b < 256)
    (hnl : nonceBytes.length = 16) (hnb : ∀ b ∈ nonceBytes, b < 256)
    (hdig : mac key (sigInput t (hexEncode nonceBytes) (base64Encode payload)) ≠ [])
    (hdigb : ∀ b ∈ mac key (sigInput t (hexEncode nonceBytes) (base64Encode payload)),
       b < 256) :
    (Open mac key (some (Seal mac key payload t nonceBytes)) [] t).1 =
      ⟨true, payload, ""⟩ := by
  have hne : nonceBytes ≠ [] := by
    intro hcontra
    rw [hcontra] at hnl
    simp at hnl
  have hn' : hexEncode nonceBytes ≠ "" := hexEncode_ne_empty nonceBytes hne
  have hp' : base64Encode payload ≠ "" := base64Encode_ne_empty payload hpl
  have hh' : hexEncode (mac key (sigInput t (hexEncode nonceBytes) (base64Encode payload)))
      ≠ "" := hexEncode_ne_empty _ hdig
  have hlen : (hexEncode nonceBytes).length = 32 := by rw [hexEncode_length, hnl]
  have hdn : hexDecode (hexEncode nonceBytes) = some nonceBytes :=
    hexDecode_hexEncode nonceBytes hnb
  have hdh : hexDecode
      (hexEncode (mac key (sigInput t (hexEncode nonceBytes) (base64Encode payload)))) =
      some (mac key (sigInput t (hexEncode nonceBytes) (base64Encode payload))) :=
    hexDecode_hexEncode _ hdigb
  have hts : tsExpired t t = false := tsExpired_eq_false_of t t (by omega)
  have hbp : base64Decode (base64Encode payload) = some payload :=
    base64Decode_base64Encode payload hpb
  simp [Open, Seal, hn', hp', hh', hlen, hdn, hdh, hts, hbp,
    evictExpired, cacheHas, cacheAdd, cacheInsert, maxNonceCache]

/-- C1 witness: the round trip on a concrete key, payload, clock and RNG
output. -/
theorem claim_C1_seal_open_roundtrip_witness :
    (Open dummyMac [] (some (Seal dummyMac [] payload1 0 nonce16zeros)) [] 0).1 =
      ⟨true, payload1, ""⟩ :=
  claim_C1_seal_open_roundtrip dummyMac [] payload1 0 nonce16zeros (by decide) (by decide)
    (by decide) (by decide) (by decide) (by decide)

/-! ### C3 — HMAC before timestamp -/

/-- Inversion: `Open` can only report `timestamp_expired` after the HMAC
has verified. -/
theorem Open_timestamp_requires_hmac (mac : MacFun) (key : List Nat) (env : Envelope)
    (c : Cache) (now : Int)
    (hr : (Open mac key (some env) c now).1.reason = "timestamp_expired") :
    hexDecode env.h = some (mac key (sigInput env.t env.n env.p)) := by
  by_cases hv : env.v = 1
  · by_cases hf : env.n = "" ∨ env.p = "" ∨ env.h = ""
    · simp [Open, hv, hf] at hr
    · by_cases hl : env.n.length = 32
      · cases hnd : hexDecode env.n with
        | none => simp [Open, hv, hf, hl, hnd] at hr
        | some nb =>
          cases hhd : hexDecode env.h with
          | none => simp [Open, hv, hf, hl, hnd, hhd] at hr
          | some actual =>
            by_cases heq : actual = mac key (sigInput env.t env.n env.p)
            · exact congrArg some heq
            · simp [Open, hv, hf, hl, hnd, hhd, heq] at hr
      · simp [Open, hv, hf, hl] at hr
  · simp [Open, hv] at hr

/-- C3: an envelope that is structurally well-formed but whose HMAC does
not verify under the session key is rejected as `bad_hmac`, regardless of
its timestamp (in particular when the timestamp is outside the ±30 s
window, as hypothesised); and `timestamp_expired` is only ever returned
when the HMAC has already verified. -/
theorem claim_C3_hmac_checked_before_timestamp (mac : MacFun) (key : List Nat)
    (env : Envelope) (c : Cache) (now : Int)
    (hv : env.v = 1) (hn : env.n ≠ "") (hp : env.p ≠ "") (hh : env.h ≠ "")
    (hnlen : env.n.length = 32) (hnhex : (hexDecode env.n).isSome = true)
    (hexp : tsExpired now env.t = true)
    (hbad : hexDecode env.h ≠ some (mac key (sigInput env.t env.n env.p))) :
    (Open mac key (some env) c now).1 = ⟨false, [], "bad_hmac"⟩ ∧
    (∀ (env' : Envelope) (c' : Cache) (now' : Int),
       (Open mac key (some env') c' now').1.reason = "timestamp_expired" →
       hexDecode env'.h = some (mac key (sigInput env'.t env'.n env'.p))) := by
  constructor
  · obtain ⟨nb, hnd⟩ := Option.isSome_iff_exists.mp hnhex
    cases hhd : hexDecode env.h with
    | none => simp [Open, hv, hn, hp, hh, hnlen, hnd, hhd]
    | some actual =>
      have hne : actual ≠ mac key (sigInput env.t env.n env.p) := by
        intro heq
        rw [hhd, heq] at hbad
        exact hbad rfl
      simp [Open, hv, hn, hp, hh, hnlen, hnd, hhd, hne]
  · intro env' c' now' hr
    exact Open_timestamp_requires_hmac mac key env' c' now' hr

/-- C3 witness: a concrete expired envelope with a wrong HMAC is rejected
as `bad_hmac`, not `timestamp_expired`. -/
theorem claim_C3_hmac_checked_before_timestamp_witness :
    (Open dummyMac []
      (some ⟨1, 0, "00000000000000000000000000000000", "AA==", "ff"⟩) [] 1000000).1 =
      ⟨false, [], "bad_hmac"⟩ :=
  (claim_C3_hmac_checked_before_timestamp dummyMac []
    ⟨1, 0, "00000000000000000000000000000000", "AA==", "ff"⟩ [] 1000000
    rfl (by decide) (by decide) (by decide) (by decide) (by decide) (by decide)
    (by decide)).1

/-! ### C4 — replay detection -/

theorem mem_eraseP_of_not {α : Type} (p : α → Bool) (l : List α) (a : α)
    (ha : a ∈ l) (hpa : p a = false) : a ∈ l.eraseP p := by
  rcases List.exists_or_eq_self_of_eraseP p l with h | ⟨b, l₁, l₂, hb1, hpb, hl, he⟩
  · rw [h]
    exact ha
  · rw [he]
    rw [hl] at ha
    rcases List.mem_append.mp ha with h1 | h1
    · exact List.mem_append.mpr (Or.inl h1)
    · rcases List.mem_cons.mp h1 with rfl | h2
      · rw [hpa] at hpb
        cases hpb
      · exact List.mem_append.mpr (Or.inr h2)

/-- A freshly admitted nonce is present in the cache after
`NonceCache.add`, provided every prior receipt time is at most the current
clock (receipt times are sampled from the same monotone clock). -/
theorem cacheAdd_mem_fresh (c : Cache) (n : String) (now : Int)
    (hfresh : cacheHas c n = false) (hts : ∀ kv ∈ c, kv.2 ≤ now)
    (hnow : now < maxInt64) : (n, now) ∈ cacheAdd c n now := by
  have hanyf : c.any (fun kv => kv.1 == n) = false := hfresh
  have hins : cacheInsert c n now = c ++ [(n, now)] := by
    unfold cacheInsert
    rw [if_neg (by simp [hanyf])]
  have hmem : (n, now) ∈ c ++ [(n, now)] := List.mem_append.mpr (Or.inr (by simp))
  unfold cacheAdd
  rw [hins]
  split
  · rename_i hover
    split
    · exact hmem
    · rename_i hone
      have hcne : c ≠ [] := by
        intro hc
        rw [hc] at hover
        simp [maxNonceCache] at hover
      obtain ⟨kv0, hkv0⟩ := List.exists_mem_of_ne_nil c hcne
      have hacc :
          c.foldl (fun acc kv => if kv.2 < acc.2 then kv else acc) ("", maxInt64) ∈ c := by
        rcases foldl_oldest_mem c ("", maxInt64) with h | h
        · exfalso
          have h1 := (foldl_oldest_le c ("", maxInt64)).2 kv0 hkv0
          rw [h] at h1
          have h2 := hts kv0 hkv0
          simp only at h1
          omega
        · exact h
      have hfold : findOldest (c ++ [(n, now)]) =
          c.foldl (fun acc kv => if kv.2 < acc.2 then kv else acc) ("", maxInt64) := by
        rw [findOldest, List.foldl_append]
        simp only [List.foldl_cons, List.foldl_nil]
        rw [if_neg (by
          have := hts _ hacc
          omega)]
      have hkeyne : (findOldest (c ++ [(n, now)])).1 ≠ n := by
        rw [hfold]
        intro hcontra
        have hany : c.any (fun kv => kv.1 == n) = true :=
          List.any_eq_true.mpr ⟨_, hacc, by simp [hcontra]⟩
        rw [hanyf] at hany
        cases hany
      apply mem_eraseP_of_not
      · exact hmem
      · simp only [beq_eq_false_iff_ne, ne_eq]
        intro hcontra
        exact hkeyne hcontra.symm
  · exact hmem

/-- `evictExpired` only removes entries. -/
theorem evictExpired_subset (c : Cache) (now : Int) :
    ∀ kv ∈ evictExpired c now, kv ∈ c := by
  intro kv hkv
  exact (List.mem_filter.mp hkv).1

/-- Inversion of a successful `Open`: all structural checks passed, the
HMAC verified, the timestamp was in window, the nonce was fresh, and the
returned cache is the original with expired entries evicted and the new
nonce admitted. -/
theorem Open_valid_inv (mac : MacFun) (key : List Nat) (env : Envelope) (c : Cache)
    (now : Int) (h : (Open mac key (some env) c now).1.valid = true) :
    env.v = 1 ∧ env.n ≠ "" ∧ env.p ≠ "" ∧ env.h ≠ "" ∧ env.n.length = 32 ∧
    (∃ nb, hexDecode env.n = some nb) ∧
    hexDecode env.h = some (mac key (sigInput env.t env.n env.p)) ∧
    tsExpired now env.t = false ∧
    cacheHas (evictExpired c now) env.n = false ∧
    (Open mac key (some env) c now).2 = cacheAdd (evictExpired c now) env.n now := by
  by_cases hv : env.v = 1
  · by_cases hf : env.n = "" ∨ env.p = "" ∨ env.h = ""
    · simp [Open, hv, hf] at h
    · by_cases hl : env.n.length = 32
      · cases hnd : hexDecode env.n with
        | none => simp [Open, hv, hf, hl, hnd] at h
        | some nb =>
          cases hhd : hexDecode env.h with
          | none => simp [Open, hv, hf, hl, hnd, hhd] at h
          | some actual =>
            by_cases heq : actual = mac key (sigInput env.t env.n env.p)
            · cases hts : tsExpired now env.t with
              | true => simp [Open, hv, hf, hl, hnd, hhd, heq, hts] at h
              | false =>
                cases hhas : cacheHas (evictExpired c now) env.n with
                | true => simp [Open, hv, hf, hl, hnd, hhd, heq, hts, hhas] at h
                | false =>
                  push_neg at hf
                  refine ⟨hv, hf.1, hf.2.1, hf.2.2, hl, ⟨nb, rfl⟩, congrArg some heq,
                    rfl, rfl, ?_⟩
                  cases hbd : base64Decode env.p with
                  | none => simp [Open, hv, hf, hl, hnd, hhd, heq, hts, hhas, hbd]
                  | some pl => simp [Open, hv, hf, hl, hnd, hhd, heq, hts, hhas, hbd]
            · simp [Open, hv, hf, hl, hnd, hhd, heq] at h
      · simp [Open, hv, hf, hl] at h
  · simp [Open, hv] at h

/-- C4 counterexample: an envelope sealed at t = 0 and accepted at time 0
is re-submitted at 40 s — within 60 s of the first submission — and `open`
returns `timestamp_expired`, not `replay`: the ±30 s timestamp window is
checked before the nonce cache, so only re-submissions inside the window
can report `replay`. -/
theorem claim_C4_counterexample :
    (Open dummyMac [] (some envAt0) [] 0).1.valid = true ∧
    (Open dummyMac [] (some envAt0) (Open dummyMac [] (some envAt0) [] 0).2 40000).1.reason
      = "timestamp_expired" ∧
    "timestamp_expired" ≠ "replay" := by
  refine ⟨by decide, by decide, by decide⟩

/-- C4 (amended): re-submitting an already accepted envelope to `open` is
rejected as `replay` whenever the second submission still lies inside the
±30 s timestamp window of the envelope (which also keeps the nonce inside
its 60 s TTL); outside the window the rejection reason is
`timestamp_expired` instead.  Receipt times in the cache never exceed the
current clock, which stays below `math.MaxInt64` ms. -/
theorem claim_C4_replay_within_window (mac : MacFun) (key : List Nat) (env : Envelope)
    (c : Cache) (now0 now1 : Int)
    (hvalid : (Open mac key (some env) c now0).1.valid = true)
    (hts : ∀ kv ∈ c, kv.2 ≤ now0)
    (hnow : now0 < maxInt64)
    (hw0 : (now0 - env.t).natAbs ≤ 30000)
    (hw1 : (now1 - env.t).natAbs ≤ 30000) :
    (Open mac key (some env) (Open mac key (some env) c now0).2 now1).1 =
      ⟨false, [], "replay"⟩ := by
  obtain ⟨hv, hn, hp, hh, hlen, ⟨nb, hnd⟩, hhd, hts0, hhas0, hc2⟩ :=
    Open_valid_inv mac key env c now0 hvalid
  have hmem2 : (env.n, now0) ∈ (Open mac key (some env) c now0).2 := by
    rw [hc2]
    apply cacheAdd_mem_fresh
    · exact hhas0
    · intro kv hkv
      exact hts kv (evictExpired_subset c now0 kv hkv)
    · exact hnow
  have hmem3 : (env.n, now0) ∈ evictExpired ((Open mac key (some env) c now0).2) now1 := by
    apply List.mem_filter.mpr
    refine ⟨hmem2, ?_⟩
    simp only [nonceTTL, decide_eq_true_eq]
    omega
  have hhas1 : cacheHas (evictExpired ((Open mac key (some env) c now0).2) now1) env.n
      = true := List.any_eq_true.mpr ⟨_, hmem3, by simp⟩
  have hts1 : tsExpired now1 env.t = false := tsExpired_eq_false_of now1 env.t hw1
  set c2 := (Open mac key (some env) c now0).2 with hc2def
  simp [Open, hv, hn, hp, hh, hlen, hnd, hhd, hts1, hhas1]

/-- C4 witness: a concrete envelope accepted at time 0 and re-submitted at
10 s is rejected as `replay`. -/
theorem claim_C4_replay_within_window_witness :
    (Open dummyMac [] (some envAt0) (Open dummyMac [] (some envAt0) [] 0).2 10000).1 =
      ⟨false, [], "replay"⟩ :=
  claim_C4_replay_within_window dummyMac [] envAt0 [] 0 10000 (by decide) (by decide)
    (by decide) (by decide) (by decide)

end ObsAgent
